import Mathlib

/-!
Shallow embedding of the TechAssassin registration / leaderboard core.

Sources embedded:
- `backend/lib/services/registrations.ts`: `determineRegistrationStatus`,
  `checkDuplicateRegistration`, `createRegistration`, and the in-memory
  rate limiter `checkRateLimit`.
- `backend/app/api/leaderboard/route.ts`: the `POST` handler's catch block
  (HTTP status dispatch on error messages).
- `supabase` migration (registrations table): unique constraint
  `registrations_user_event_unique` on (user_id, event_id).

The relational store is modelled as an explicit `DB` value threaded through
the service functions; supabase query failures are surfaced as
`Except` errors exactly where the TypeScript re-throws them.
-/

/-- Registration status enum of the `registrations.status` column
(CHECK constraint: 'pending' | 'confirmed' | 'waitlisted'). -/
inductive RegStatus where
  | pending
  | confirmed
  | waitlisted
deriving DecidableEq

abbrev UserId := String
abbrev EventId := String

/-- Row of the `events` table (fields the registration core reads). -/
structure Event where
  id : EventId
  max_participants : Nat
  registration_open : Bool
deriving DecidableEq

/-- Row of the `registrations` table (fields the registration core reads/writes). -/
structure Registration where
  user_id : UserId
  event_id : EventId
  team_name : String
  project_idea : String
  status : RegStatus
deriving DecidableEq

/-- The relational store as seen by the registration core. -/
structure DB where
  events : List Event
  registrations : List Registration
deriving DecidableEq

/-- Typed error kinds; the TypeScript throws `Error` with distinguishing
messages, which the HTTP layer maps back to these kinds (spec section 7). -/
inductive RegError where
  | validationError
  | notFoundError
  | registrationClosedError
  | duplicateRegistrationError
  | storageError
deriving DecidableEq

/-- Rows of the `registrations` table for one event (the `eq('event_id', ...)` filter). -/
def eventRegs (db : DB) (eventId : EventId) : List Registration :=
  db.registrations.filter fun r => decide (r.event_id = eventId)

/-- Modelled from the spec: `getParticipantCount` lives in
`lib/services/events.ts`, which is not in the repository snapshot; spec
section 4.1 (Capacity Counter): counts Registration rows for the event whose
`status = confirmed`. -/
def getParticipantCount (db : DB) (eventId : EventId) : Nat :=
  ((eventRegs db eventId).filter fun r => decide (r.status = RegStatus.confirmed)).length

/-- `determineRegistrationStatus` from `registrations.ts`: fetch the event's
`max_participants` (`.single()`, failing when the event is missing), fetch the
confirmed count, and return `confirmed` when the count is below capacity. -/
def determineRegistrationStatus (db : DB) (eventId : EventId) :
    Except RegError RegStatus :=
  match db.events.find? (fun ev => decide (ev.id = eventId)) with
  | none => Except.error RegError.notFoundError
  | some event =>
    Except.ok (if getParticipantCount db eventId < event.max_participants
               then RegStatus.confirmed else RegStatus.waitlisted)

/-- Rows matching `.eq('user_id', userId).eq('event_id', eventId)`. -/
def findRegistrations (db : DB) (userId : UserId) (eventId : EventId) :
    List Registration :=
  db.registrations.filter fun r =>
    decide (r.user_id = userId) && decide (r.event_id = eventId)

/-- Supabase `.maybeSingle()`: `none` for zero rows, the row for one row,
an error for more than one row. -/
def maybeSingle (rows : List Registration) : Except RegError (Option Registration) :=
  match rows with
  | [] => Except.ok none
  | [r] => Except.ok (some r)
  | _ :: _ :: _ => Except.error RegError.storageError

/-- `checkDuplicateRegistration` from `registrations.ts`: a `maybeSingle`
lookup on the (user, event) pair; a read failure (`readFails`) is re-thrown
(`Failed to check duplicate registration`), otherwise returns `data !== null`. -/
def checkDuplicateRegistration (db : DB) (readFails : Bool)
    (userId : UserId) (eventId : EventId) : Except RegError Bool :=
  if readFails then Except.error RegError.storageError
  else
    match maybeSingle (findRegistrations db userId eventId) with
    | Except.error e => Except.error e
    | Except.ok data => Except.ok data.isSome

/-- The `insert` into `registrations`, guarded by the table's unique
constraint `registrations_user_event_unique` on (user_id, event_id); a
constraint violation surfaces as `DuplicateRegistrationError` (spec
section 4.4: translated from the store's constraint-violation signal). -/
def insertRegistration (db : DB) (r : Registration) : Except RegError DB :=
  if db.registrations.any (fun x =>
       decide (x.user_id = r.user_id) && decide (x.event_id = r.event_id))
  then Except.error RegError.duplicateRegistrationError
  else Except.ok { db with registrations := db.registrations ++ [r] }

/-- Request body of the registration endpoint. -/
structure RegistrationData where
  event_id : EventId
  team_name : String
  project_idea : String
deriving DecidableEq

/-- `createRegistration` from `registrations.ts`: duplicate check, then
status resolution, then the guarded insert; each failure is re-thrown.
The duplicate-check read is modelled as succeeding (`readFails = false`)
on this path. -/
def createRegistration (db : DB) (userId : UserId) (data : RegistrationData) :
    Except RegError (Registration × DB) :=
  match checkDuplicateRegistration db false userId data.event_id with
  | Except.error e => Except.error e
  | Except.ok true => Except.error RegError.duplicateRegistrationError
  | Except.ok false =>
    match determineRegistrationStatus db data.event_id with
    | Except.error e => Except.error e
    | Except.ok status =>
      match insertRegistration db
          ⟨userId, data.event_id, data.team_name, data.project_idea, status⟩ with
      | Except.error e => Except.error e
      | Except.ok db' =>
        Except.ok (⟨userId, data.event_id, data.team_name, data.project_idea, status⟩, db')

/-- A string that is empty after trimming whitespace, i.e. every character
is whitespace. -/
def strTrimEmpty (s : String) : Bool := s.toList.all Char.isWhitespace

/-- Modelled from the spec: the `POST /api/registrations` route handler is
not in the repository snapshot (only `createRegistration` is); spec
section 4.4 gives the Registration Creator's precondition order, checked
short-circuiting: (1) `teamName` and `projectIdea` non-empty after trimming,
else `ValidationError`; (2) the event exists and has `registration_open =
true`, else `NotFoundError` / `RegistrationClosedError`; then the service
call. -/
def register (db : DB) (userId : UserId) (data : RegistrationData) :
    Except RegError (Registration × DB) :=
  if strTrimEmpty data.team_name || strTrimEmpty data.project_idea then
    Except.error RegError.validationError
  else
    match db.events.find? (fun ev => decide (ev.id = data.event_id)) with
    | none => Except.error RegError.notFoundError
    | some event =>
      if event.registration_open then createRegistration db userId data
      else Except.error RegError.registrationClosedError

/-- State transition of one `register` request: a failed request commits nothing. -/
def applyRegister (db : DB) (c : UserId × RegistrationData) : DB :=
  match register db c.1 c.2 with
  | Except.ok (_, db') => db'
  | Except.error _ => db

/-- A sequence of `register` requests, committed in order. -/
def runRegisters (db : DB) (calls : List (UserId × RegistrationData)) : DB :=
  calls.foldl applyRegister db

/-- Row of the `leaderboard` table (fields the rank recalculator reads/writes). -/
structure LBEntry where
  user_id : UserId
  score : Nat
  rank : Nat
deriving DecidableEq

/-- Descending-score order used by the rank recalculator (`score DESC`). -/
def scoreGE (a b : LBEntry) : Prop := b.score ≤ a.score

instance : DecidableRel scoreGE := fun a b =>
  inferInstanceAs (Decidable (b.score ≤ a.score))

instance : IsTotal LBEntry scoreGE :=
  ⟨fun a b => (Nat.le_total a.score b.score).symm⟩

instance : IsTrans LBEntry scoreGE :=
  ⟨fun _ _ _ hab hbc => Nat.le_trans hbc hab⟩

/-- Walk of the score-sorted tail: an entry tied with the previous score keeps
the previous rank, a strictly lower score gets the previous rank plus one. -/
def assignFrom (prevScore prevRank : Nat) : List LBEntry → List LBEntry
  | [] => []
  | e :: rest =>
    let r := if e.score = prevScore then prevRank else prevRank + 1
    { e with rank := r } :: assignFrom e.score r rest

/-- Dense rank assignment over a score-descending list: the first entry gets
rank 1; ties share a rank; each next distinct (lower) score gets the previous
rank plus one. -/
def assignDenseRanks : List LBEntry → List LBEntry
  | [] => []
  | e :: rest => { e with rank := 1 } :: assignFrom e.score 1 rest

/-- Modelled from the spec: `recalculateRanks` lives in
`lib/services/leaderboard.ts`, which is not in the repository snapshot (the
design document only declares it); spec section 4.5: load the event's
entries, sort by `score` descending, and assign dense competition ranks. -/
def recalculateRanks (entries : List LBEntry) : List LBEntry :=
  assignDenseRanks (entries.insertionSort scoreGE)

/-- Local shape of dense competition ranking between consecutive entries of
the score-sorted output. -/
def rankStep (a b : LBEntry) : Prop :=
  (b.score = a.score → b.rank = a.rank) ∧ (b.score ≠ a.score → b.rank = a.rank + 1)

/-- The spec's worked leaderboard example: scores [50, 80, 80, 30] held by
four distinct users (initial ranks arbitrary). -/
def exampleEntries : List LBEntry :=
  [⟨"u1", 50, 0⟩, ⟨"u2", 80, 0⟩, ⟨"u3", 80, 0⟩, ⟨"u4", 30, 0⟩]

/-- Rank assigned to one user by a leaderboard entry list. -/
def findRank (entries : List LBEntry) (userId : UserId) : Option Nat :=
  (entries.find? fun e => decide (e.user_id = userId)).map LBEntry.rank

/-- `RateLimitEntry` from the in-memory rate limiter (times in milliseconds,
modelled as naturals). -/
structure RateLimitEntry where
  count : Nat
  resetTime : Nat
deriving DecidableEq

/-- The `rateLimitStore` map. -/
def RLStore : Type := String → Option RateLimitEntry

/-- `rateLimitStore.set(key, entry)`. -/
def rlSet (store : RLStore) (key : String) (entry : RateLimitEntry) : RLStore :=
  fun k => if k = key then some entry else store k

/-- Key used by `checkRateLimit` for a user. -/
def rlKey (userId : String) : String := "registration:" ++ userId

/-- Result object of `checkRateLimit`. -/
structure RateLimitResult where
  allowed : Bool
  remaining : Nat
  resetTime : Nat
deriving DecidableEq

/-- `checkRateLimit` from the rate limiter source: fetch or (re)create the
entry for `registration:<userId>` (a fresh window starts when no entry exists
or `now >= entry.resetTime`), deny with `remaining = 0` when
`entry.count >= limit`, otherwise increment the count and allow with
`remaining = limit - count`. `Date.now()` is passed in as `now`. -/
def checkRateLimit (store : RLStore) (userId : String)
    (limit windowMs now : Nat) : RateLimitResult × RLStore :=
  let key := rlKey userId
  let fresh : RateLimitEntry := ⟨0, now + windowMs⟩
  let startFresh : Bool :=
    match store key with
    | none => true
    | some e => decide (e.resetTime ≤ now)
  let entry : RateLimitEntry :=
    if startFresh then fresh else (store key).getD fresh
  let store1 : RLStore := if startFresh then rlSet store key fresh else store
  if limit ≤ entry.count then
    (⟨false, 0, entry.resetTime⟩, store1)
  else
    let e2 : RateLimitEntry := ⟨entry.count + 1, entry.resetTime⟩
    (⟨true, limit - e2.count, e2.resetTime⟩, rlSet store1 key e2)

/-- A sequence of `checkRateLimit` calls for one user at the given times. -/
def runRateLimit (store : RLStore) (userId : String) (limit windowMs : Nat) :
    List Nat → List RateLimitResult × RLStore
  | [] => ([], store)
  | t :: ts =>
    let out := checkRateLimit store userId limit windowMs t
    let rest := runRateLimit out.2 userId limit windowMs ts
    (out.1 :: rest.1, rest.2)

/-- Number of calls in a result sequence that were allowed. -/
def allowedCount (results : List RateLimitResult) : Nat :=
  (results.filter fun r => r.allowed).length

/-- `String.prototype.includes` (substring containment). -/
def strContains (haystack needle : String) : Bool :=
  decide (List.IsInfix needle.toList haystack.toList)

/-- Structured HTTP error response `{ error: string }` with its status code. -/
structure ErrorResponse where
  status : Nat
  error : String
deriving DecidableEq

/-- Failure reaching the catch block of `POST /api/leaderboard`: either a
`ZodError` (request validation) or a JavaScript `Error` carrying a message. -/
inductive LBFailure where
  | zodError (details : String)
  | errorWithMessage (message : String)
deriving DecidableEq

/-- Catch block of `POST /api/leaderboard` in
`backend/app/api/leaderboard/route.ts`: `ZodError` gives 400; an `Error`
whose message includes 'Unauthorized' or 'Authentication required' gives 401
with that message; one whose message includes 'Admin access required' gives
403 with that message; everything else gives 500 with the constant body
'Internal server error'. -/
def leaderboardErrorResponse : LBFailure → ErrorResponse
  | LBFailure.zodError _ => ⟨400, "Validation failed"⟩
  | LBFailure.errorWithMessage msg =>
    if strContains msg "Unauthorized" || strContains msg "Authentication required" then
      ⟨401, msg⟩
    else if strContains msg "Admin access required" then
      ⟨403, msg⟩
    else
      ⟨500, "Internal server error"⟩

/-- Modelled from the spec: `upsertLeaderboardEntry` lives in
`lib/services/leaderboard.ts`, which is not in the repository snapshot. A
backing-store failure there is re-thrown as an `Error` whose message wraps
the store's own message, following the service-layer pattern of
`registrations.ts` (`Failed to ...: <store message>`). -/
def storeFailure (storeMessage : String) : LBFailure :=
  LBFailure.errorWithMessage ("Failed to upsert leaderboard entry: " ++ storeMessage)

deriving instance DecidableEq for Except

/-- Expected status column of the first k committed registrations of an
event with capacity N: positions below N are confirmed, the rest waitlisted. -/
def statusSeq (k N : Nat) : List RegStatus :=
  (List.range k).map fun i => if i < N then RegStatus.confirmed else RegStatus.waitlisted

/-- Capacity invariant: after k successful registrations from empty, the
event's rows carry exactly the statuses `statusSeq k N`. -/
def CapInv (db : DB) (eventId : EventId) (N k : Nat) : Prop :=
  (eventRegs db eventId).map Registration.status = statusSeq k N

theorem checkDuplicate_ok_false {db : DB} {u : UserId} {e : EventId} :
    checkDuplicateRegistration db false u e = Except.ok false ↔
    findRegistrations db u e = [] := by
  unfold checkDuplicateRegistration
  rcases hl : findRegistrations db u e with _ | ⟨x, _ | ⟨y, t⟩⟩ <;>
    simp [maybeSingle, hl]

theorem register_ok_inv {db : DB} {u : UserId} {d : RegistrationData}
    {r : Registration} {db' : DB}
    (h : register db u d = Except.ok (r, db')) :
    strTrimEmpty d.team_name = false ∧ strTrimEmpty d.project_idea = false ∧
    (∃ ev, db.events.find? (fun x => decide (x.id = d.event_id)) = some ev ∧
      ev.registration_open = true) ∧
    findRegistrations db u d.event_id = [] ∧
    determineRegistrationStatus db d.event_id = Except.ok r.status ∧
    r = ⟨u, d.event_id, d.team_name, d.project_idea, r.status⟩ ∧
    db' = { db with registrations := db.registrations ++ [r] } := by
  unfold register createRegistration at h
  split at h
  · exact Except.noConfusion h
  rename_i hv
  split at h
  · exact Except.noConfusion h
  rename_i ev hev
  split at h
  swap
  · exact Except.noConfusion h
  rename_i hopen
  split at h
  · exact Except.noConfusion h
  · exact Except.noConfusion h
  rename_i hdup
  split at h
  · exact Except.noConfusion h
  rename_i status hst
  split at h
  · exact Except.noConfusion h
  rename_i db2 hins
  injection h with h1
  injection h1 with hr hdb
  have hv' : strTrimEmpty d.team_name = false ∧ strTrimEmpty d.project_idea = false := by
    simpa using hv
  refine ⟨hv'.1, hv'.2, ⟨ev, hev, hopen⟩, checkDuplicate_ok_false.mp hdup, ?_, ?_, ?_⟩
  · rw [hst, ← hr]
  · rw [← hr]
  · unfold insertRegistration at hins
    split at hins
    · exact Except.noConfusion hins
    injection hins with h2
    rw [← hdb, ← h2, ← hr]

theorem statusSeq_count (N : Nat) :
    ∀ k, ((statusSeq k N).filter fun s => decide (s = RegStatus.confirmed)).length
      = min k N := by
  intro k
  induction k with
  | zero => simp [statusSeq]
  | succ k ih =>
    rw [statusSeq, List.range_succ, List.map_append, List.filter_append,
      List.length_append]
    rw [show ((List.range k).map fun i =>
      if i < N then RegStatus.confirmed else RegStatus.waitlisted) = statusSeq k N from rfl]
    rw [ih]
    simp only [List.map_cons, List.map_nil]
    by_cases hk : k < N
    · rw [if_pos hk]
      have h1 : (List.filter (fun s => decide (s = RegStatus.confirmed))
          [RegStatus.confirmed]).length = 1 := rfl
      rw [h1]
      omega
    · rw [if_neg hk]
      have h0 : (List.filter (fun s => decide (s = RegStatus.confirmed))
          [RegStatus.waitlisted]).length = 0 := rfl
      rw [h0]
      omega

theorem capInv_count {db : DB} {e : EventId} {N k : Nat} (h : CapInv db e N k) :
    getParticipantCount db e = min k N := by
  unfold getParticipantCount
  show (List.filter ((fun s => decide (s = RegStatus.confirmed)) ∘ Registration.status)
    (eventRegs db e)).length = min k N
  have hm : ((eventRegs db e).map Registration.status).filter
      (fun s => decide (s = RegStatus.confirmed)) =
      ((eventRegs db e).filter
        ((fun s => decide (s = RegStatus.confirmed)) ∘ Registration.status)).map
        Registration.status :=
    List.filter_map _ _
  unfold CapInv at h
  rw [h] at hm
  have hlen := congrArg List.length hm
  rw [statusSeq_count, List.length_map] at hlen
  exact hlen.symm

theorem statusSeq_succ (k N : Nat) :
    statusSeq (k + 1) N = statusSeq k N ++
      [if k < N then RegStatus.confirmed else RegStatus.waitlisted] := by
  unfold statusSeq
  rw [List.range_succ, List.map_append]
  rfl

theorem eventRegs_append (db : DB) (e : EventId) (r : Registration) :
    eventRegs { db with registrations := db.registrations ++ [r] } e =
      eventRegs db e ++ (if r.event_id = e then [r] else []) := by
  unfold eventRegs
  rw [List.filter_append]
  by_cases hce : r.event_id = e
  · rw [if_pos hce]
    congr 1
    simp [hce]
  · rw [if_neg hce]
    congr 1
    simp [hce]

theorem applyRegister_step {db : DB} {e : EventId} {ev : Event} {k : Nat}
    (hev : db.events.find? (fun x => decide (x.id = e)) = some ev)
    (hinv : CapInv db e ev.max_participants k)
    (c : UserId × RegistrationData) :
    (applyRegister db c).events = db.events ∧
    (CapInv (applyRegister db c) e ev.max_participants k ∨
     CapInv (applyRegister db c) e ev.max_participants (k + 1)) := by
  unfold applyRegister
  rcases hcall : register db c.1 c.2 with err | ⟨r, db'⟩
  · exact ⟨rfl, Or.inl hinv⟩
  · show db'.events = db.events ∧
      (CapInv db' e ev.max_participants k ∨ CapInv db' e ev.max_participants (k + 1))
    obtain ⟨_, _, _, _, hstat, hrr, hdb⟩ := register_ok_inv hcall
    have hre : r.event_id = c.2.event_id := by rw [hrr]
    have hevents : db'.events = db.events := by rw [hdb]
    refine ⟨hevents, ?_⟩
    by_cases hce : r.event_id = e
    · right
      have he : c.2.event_id = e := hre.symm.trans hce
      rw [he] at hstat
      unfold determineRegistrationStatus at hstat
      rw [hev] at hstat
      injection hstat with hs2
      rw [capInv_count hinv] at hs2
      have hs2' : r.status =
          (if k < ev.max_participants then RegStatus.confirmed
           else RegStatus.waitlisted) := by
        by_cases hk : k < ev.max_participants
        · rw [if_pos hk]
          rw [if_pos (by omega : k ⊓ ev.max_participants < ev.max_participants)] at hs2
          exact hs2.symm
        · rw [if_neg hk]
          rw [if_neg (by omega : ¬ k ⊓ ev.max_participants < ev.max_participants)] at hs2
          exact hs2.symm
      unfold CapInv
      rw [hdb, eventRegs_append, if_pos hce, List.map_append, hinv,
        statusSeq_succ]
      rw [List.map_singleton, hs2']
    · left
      unfold CapInv
      rw [hdb, eventRegs_append, if_neg hce, List.append_nil]
      exact hinv

theorem runRegisters_inv {e : EventId} {ev : Event} :
    ∀ (calls : List (UserId × RegistrationData)) (db : DB) (k : Nat),
    db.events.find? (fun x => decide (x.id = e)) = some ev →
    CapInv db e ev.max_participants k →
    ∃ k', CapInv (runRegisters db calls) e ev.max_participants k' := by
  intro calls
  induction calls with
  | nil => intro db k hev hinv; exact ⟨k, hinv⟩
  | cons c cs ih =>
    intro db k hev hinv
    obtain ⟨hevents, hstep⟩ := applyRegister_step hev hinv c
    have hev' : (applyRegister db c).events.find?
        (fun x => decide (x.id = e)) = some ev := by rw [hevents]; exact hev
    show ∃ k', CapInv (runRegisters (applyRegister db c) cs) e ev.max_participants k'
    rcases hstep with h | h
    · exact ih _ _ hev' h
    · exact ih _ _ hev' h

theorem assignFrom_map_score (t : List LBEntry) :
    ∀ s r, (assignFrom s r t).map LBEntry.score = t.map LBEntry.score := by
  induction t with
  | nil => intro s r; rfl
  | cons x xs ih => intro s r; simp [assignFrom, ih]

theorem assignDenseRanks_map_score (m : List LBEntry) :
    (assignDenseRanks m).map LBEntry.score = m.map LBEntry.score := by
  cases m with
  | nil => rfl
  | cons e t => simp [assignDenseRanks, assignFrom_map_score]

theorem sorted_map_score_iff (m : List LBEntry) :
    List.Sorted scoreGE m ↔
    List.Pairwise (fun a b : Nat => b ≤ a) (m.map LBEntry.score) := by
  rw [List.pairwise_map]
  exact Iff.rfl

theorem sorted_assignDenseRanks {m : List LBEntry} (h : List.Sorted scoreGE m) :
    List.Sorted scoreGE (assignDenseRanks m) := by
  rw [sorted_map_score_iff, assignDenseRanks_map_score]
  exact (sorted_map_score_iff m).mp h

theorem assignFrom_assignFrom (t : List LBEntry) :
    ∀ s r s' r', assignFrom s r (assignFrom s' r' t) = assignFrom s r t := by
  induction t with
  | nil => intro s r s' r'; rfl
  | cons x xs ih =>
    intro s r s' r'
    simp only [assignFrom]
    rw [ih]

theorem assignDenseRanks_idem (m : List LBEntry) :
    assignDenseRanks (assignDenseRanks m) = assignDenseRanks m := by
  cases m with
  | nil => rfl
  | cons e t =>
    simp only [assignDenseRanks]
    rw [assignFrom_assignFrom]

theorem chain_rankStep_assignFrom :
    ∀ (t : List LBEntry) (a : LBEntry),
    List.Chain' rankStep (a :: assignFrom a.score a.rank t) := by
  intro t
  induction t with
  | nil => intro a; exact List.chain'_singleton a
  | cons x xs ih =>
    intro a
    simp only [assignFrom]
    rw [List.chain'_cons]
    constructor
    · constructor
      · intro heq
        have hx : x.score = a.score := heq
        show (if x.score = a.score then a.rank else a.rank + 1) = a.rank
        rw [if_pos hx]
      · intro hne
        have hx : ¬ x.score = a.score := fun hh => hne hh
        show (if x.score = a.score then a.rank else a.rank + 1) = a.rank + 1
        rw [if_neg hx]
    · have := ih ⟨x.user_id, x.score, if x.score = a.score then a.rank else a.rank + 1⟩
      simpa using this

theorem chain_rankStep_assignDenseRanks (m : List LBEntry) :
    List.Chain' rankStep (assignDenseRanks m) := by
  cases m with
  | nil => simp [assignDenseRanks]
  | cons e t =>
    simp only [assignDenseRanks]
    have := chain_rankStep_assignFrom t ⟨e.user_id, e.score, 1⟩
    simpa using this

theorem assignFrom_map_pair (t : List LBEntry) :
    ∀ s r, (assignFrom s r t).map (fun e => (e.user_id, e.score)) =
      t.map (fun e => (e.user_id, e.score)) := by
  induction t with
  | nil => intro s r; rfl
  | cons x xs ih => intro s r; simp [assignFrom, ih]

theorem assignDenseRanks_map_pair (m : List LBEntry) :
    (assignDenseRanks m).map (fun e => (e.user_id, e.score)) =
      m.map (fun e => (e.user_id, e.score)) := by
  cases m with
  | nil => rfl
  | cons e t => simp [assignDenseRanks, assignFrom_map_pair]

theorem recalculateRanks_perm_pair (l : List LBEntry) :
    List.Perm ((recalculateRanks l).map (fun e => (e.user_id, e.score)))
      (l.map (fun e => (e.user_id, e.score))) := by
  unfold recalculateRanks
  rw [assignDenseRanks_map_pair]
  exact (List.perm_insertionSort scoreGE l).map _

theorem recalculateRanks_head_rank (l : List LBEntry) :
    ∀ e, (recalculateRanks l).head? = some e → e.rank = 1 := by
  unfold recalculateRanks
  cases hs : l.insertionSort scoreGE with
  | nil => intro e he; exact Option.noConfusion he
  | cons x t =>
    intro e he
    simp only [assignDenseRanks, List.head?_cons] at he
    injection he with he'
    rw [← he']

theorem recalculateRanks_sorted (l : List LBEntry) :
    List.Sorted scoreGE (recalculateRanks l) := by
  unfold recalculateRanks
  exact sorted_assignDenseRanks (List.sorted_insertionSort scoreGE l)

theorem rlSet_same (store : RLStore) (key : String) (e : RateLimitEntry) :
    rlSet store key e key = some e := by
  unfold rlSet
  rw [if_pos rfl]

theorem checkRateLimit_live (store : RLStore) (u : String) (limit w now : Nat)
    {c R : Nat} (hs : store (rlKey u) = some ⟨c, R⟩) (hnow : now < R) :
    checkRateLimit store u limit w now =
      if limit ≤ c then (⟨false, 0, R⟩, store)
      else (⟨true, limit - (c + 1), R⟩, rlSet store (rlKey u) ⟨c + 1, R⟩) := by
  have hd : decide (R ≤ now) = false := by
    rw [decide_eq_false_iff_not]
    omega
  simp only [checkRateLimit, hs, hd, Bool.false_eq_true, if_false,
    Option.getD_some]

theorem allowedCount_cons (r : RateLimitResult) (rs : List RateLimitResult) :
    allowedCount (r :: rs) =
      (if r.allowed then 1 else 0) + allowedCount rs := by
  unfold allowedCount
  rw [List.filter_cons]
  by_cases h : r.allowed
  · rw [if_pos h, if_pos h, List.length_cons]
    omega
  · rw [if_neg h, if_neg h]
    omega

theorem runRateLimit_bound (u : String) (limit w : Nat) :
    ∀ (ts : List Nat) (store : RLStore) (c R : Nat),
    store (rlKey u) = some ⟨c, R⟩ → (∀ t ∈ ts, t < R) →
    allowedCount (runRateLimit store u limit w ts).1 ≤ limit - c := by
  intro ts
  induction ts with
  | nil =>
    intro store c R hs hts
    simp [runRateLimit, allowedCount]
  | cons t ts ih =>
    intro store c R hs hts
    have hnow : t < R := hts t (List.mem_cons_self t ts)
    unfold runRateLimit
    rw [checkRateLimit_live store u limit w t hs hnow]
    by_cases hlim : limit ≤ c
    · rw [if_pos hlim]
      rw [allowedCount_cons]
      have hrest := ih store c R hs (fun x hx => hts x (List.mem_cons_of_mem t hx))
      simpa using hrest
    · rw [if_neg hlim]
      rw [allowedCount_cons]
      have hs' : rlSet store (rlKey u) ⟨c + 1, R⟩ (rlKey u) = some ⟨c + 1, R⟩ :=
        rlSet_same store (rlKey u) ⟨c + 1, R⟩
      have hrest := ih (rlSet store (rlKey u) ⟨c + 1, R⟩) (c + 1) R hs'
        (fun x hx => hts x (List.mem_cons_of_mem t hx))
      simp only [if_true]
      omega

theorem checkRateLimit_fresh (store : RLStore) (u : String) (limit w now : Nat)
    (hs : store (rlKey u) = none) :
    checkRateLimit store u limit w now =
      if limit = 0 then
        (⟨false, 0, now + w⟩, rlSet store (rlKey u) ⟨0, now + w⟩)
      else
        (⟨true, limit - 1, now + w⟩,
          rlSet (rlSet store (rlKey u) ⟨0, now + w⟩) (rlKey u) ⟨1, now + w⟩) := by
  simp only [checkRateLimit, hs, if_true]
  by_cases hl : limit = 0
  · rw [if_pos (by omega : limit ≤ (0 : Nat)), if_pos hl]
  · rw [if_neg (by omega : ¬ limit ≤ (0 : Nat)), if_neg hl]

theorem checkRateLimit_expired (store : RLStore) (u : String) (limit w now : Nat)
    {c R : Nat} (hs : store (rlKey u) = some ⟨c, R⟩) (hnow : R ≤ now) :
    checkRateLimit store u limit w now =
      if limit = 0 then
        (⟨false, 0, now + w⟩, rlSet store (rlKey u) ⟨0, now + w⟩)
      else
        (⟨true, limit - 1, now + w⟩,
          rlSet (rlSet store (rlKey u) ⟨0, now + w⟩) (rlKey u) ⟨1, now + w⟩) := by
  have hd : decide (R ≤ now) = true := decide_eq_true hnow
  simp only [checkRateLimit, hs, hd, if_true]
  by_cases hl : limit = 0
  · rw [if_pos (by omega : limit ≤ (0 : Nat)), if_pos hl]
  · rw [if_neg (by omega : ¬ limit ≤ (0 : Nat)), if_neg hl]

theorem rl_window_allowed_le (store : RLStore) (u : String) (limit w t0 : Nat)
    (ts : List Nat) (h0 : store (rlKey u) = none)
    (hts : ∀ t ∈ ts, t < t0 + w) :
    allowedCount (runRateLimit store u limit w (t0 :: ts)).1 ≤ limit := by
  unfold runRateLimit
  rw [checkRateLimit_fresh store u limit w t0 h0]
  by_cases hl : limit = 0
  · rw [if_pos hl]
    rw [allowedCount_cons]
    have hs' : rlSet store (rlKey u) ⟨0, t0 + w⟩ (rlKey u) = some ⟨0, t0 + w⟩ :=
      rlSet_same _ _ _
    have hrest := runRateLimit_bound u limit w ts _ 0 (t0 + w) hs' hts
    simp only [Bool.false_eq_true, if_false]
    omega
  · rw [if_neg hl]
    rw [allowedCount_cons]
    have hs' : rlSet (rlSet store (rlKey u) ⟨0, t0 + w⟩) (rlKey u) ⟨1, t0 + w⟩
        (rlKey u) = some ⟨1, t0 + w⟩ := rlSet_same _ _ _
    have hrest := runRateLimit_bound u limit w ts _ 1 (t0 + w) hs' hts
    simp only [if_true]
    omega

theorem checkRateLimit_remaining_le (store : RLStore) (u : String)
    (limit w now : Nat) :
    (checkRateLimit store u limit w now).1.remaining ≤ limit := by
  rcases hs : store (rlKey u) with _ | ⟨c, R⟩
  · rw [checkRateLimit_fresh store u limit w now hs]
    by_cases hl : limit = 0
    · rw [if_pos hl]
      exact Nat.zero_le limit
    · rw [if_neg hl]
      exact Nat.sub_le limit 1
  · by_cases hnow : R ≤ now
    · rw [checkRateLimit_expired store u limit w now hs hnow]
      by_cases hl : limit = 0
      · rw [if_pos hl]
        exact Nat.zero_le limit
      · rw [if_neg hl]
        exact Nat.sub_le limit 1
    · rw [checkRateLimit_live store u limit w now hs (by omega)]
      by_cases hlc : limit ≤ c
      · rw [if_pos hlc]
        exact Nat.zero_le limit
      · rw [if_neg hlc]
        exact Nat.sub_le limit (c + 1)

theorem checkRateLimit_denied (store : RLStore) (u : String)
    (limit w now : Nat)
    (hfalse : (checkRateLimit store u limit w now).1.allowed = false) :
    (checkRateLimit store u limit w now).1.remaining = 0 ∧
    ((checkRateLimit store u limit w now).2 (rlKey u) = store (rlKey u) ∨
     (checkRateLimit store u limit w now).2 (rlKey u) = some ⟨0, now + w⟩) := by
  rcases hs : store (rlKey u) with _ | ⟨c, R⟩
  · rw [checkRateLimit_fresh store u limit w now hs] at hfalse ⊢
    by_cases hl : limit = 0
    · rw [if_pos hl]
      exact ⟨rfl, Or.inr (rlSet_same _ _ _)⟩
    · rw [if_neg hl] at hfalse
      exact Bool.noConfusion hfalse
  · by_cases hnow : R ≤ now
    · rw [checkRateLimit_expired store u limit w now hs hnow] at hfalse ⊢
      by_cases hl : limit = 0
      · rw [if_pos hl]
        exact ⟨rfl, Or.inr (rlSet_same _ _ _)⟩
      · rw [if_neg hl] at hfalse
        exact Bool.noConfusion hfalse
    · rw [checkRateLimit_live store u limit w now hs (by omega)] at hfalse ⊢
      by_cases hlc : limit ≤ c
      · rw [if_pos hlc]
        exact ⟨rfl, Or.inl hs⟩
      · rw [if_neg hlc] at hfalse
        exact Bool.noConfusion hfalse

theorem checkRateLimit_fresh_allowed (store : RLStore) (u : String)
    (limit w now : Nat) {c R : Nat} (hpos : 0 < limit)
    (hs : store (rlKey u) = some ⟨c, R⟩) (hnow : R ≤ now) :
    (checkRateLimit store u limit w now).1.allowed = true := by
  rw [checkRateLimit_expired store u limit w now hs hnow]
  rw [if_neg (by omega : ¬ limit = 0)]

/-- Claim C1: starting from an event with no registrations, in any sequence
of register calls the i-th committed registration of that event (0-based) has
status confirmed when i is below `max_participants` and waitlisted from
position `max_participants` on. -/
theorem register_capacity_order (db : DB) (eventId : EventId) (ev : Event)
    (hev : db.events.find? (fun x => decide (x.id = eventId)) = some ev)
    (hempty : eventRegs db eventId = [])
    (calls : List (UserId × RegistrationData)) (i : Nat) (r : Registration)
    (hi : (eventRegs (runRegisters db calls) eventId).get? i = some r) :
    r.status = if i < ev.max_participants then RegStatus.confirmed
               else RegStatus.waitlisted := by
  have hinv0 : CapInv db eventId ev.max_participants 0 := by
    unfold CapInv statusSeq
    rw [hempty]
    rfl
  obtain ⟨k', hinv⟩ := runRegisters_inv calls db 0 hev hinv0
  unfold CapInv at hinv
  have h1 : ((eventRegs (runRegisters db calls) eventId).map Registration.status).get? i
      = some r.status := by
    rw [List.get?_map, hi]
    rfl
  rw [hinv] at h1
  have hik : i < k' := by
    have hlt := (List.get?_eq_some.mp h1).1
    unfold statusSeq at hlt
    rw [List.length_map, List.length_range] at hlt
    exact hlt
  unfold statusSeq at h1
  rw [List.get?_map, List.get?_range hik] at h1
  simp only [Option.map_some'] at h1
  injection h1 with h2
  exact h2.symm

/-- Witness for C1: with capacity 2 and three successful registrations, the
third committed row is waitlisted. -/
theorem register_capacity_order_witness :
    (Registration.mk "u3" "e1" "T3" "P3" RegStatus.waitlisted).status =
      if 2 < (Event.mk "e1" 2 true).max_participants then RegStatus.confirmed
      else RegStatus.waitlisted :=
  register_capacity_order ⟨[⟨"e1", 2, true⟩], []⟩ "e1" ⟨"e1", 2, true⟩ (by decide)
    (by decide)
    [("u1", ⟨"e1", "T1", "P1"⟩), ("u2", ⟨"e1", "T2", "P2"⟩), ("u3", ⟨"e1", "T3", "P3"⟩)]
    2 ⟨"u3", "e1", "T3", "P3", RegStatus.waitlisted⟩ (by decide)

/-- Claim C2: once a register call for (U, E) has succeeded, a second register
call for the same (U, E) pair (with inputs passing validation) fails with
DuplicateRegistrationError and leaves the registration rows unchanged; the
quantification over both payloads covers either call order. -/
theorem register_twice (db : DB) (u : UserId) (d d' : RegistrationData)
    (r : Registration) (db' : DB)
    (hsame : d'.event_id = d.event_id)
    (hv1 : strTrimEmpty d'.team_name = false)
    (hv2 : strTrimEmpty d'.project_idea = false)
    (h1 : register db u d = Except.ok (r, db')) :
    register db' u d' = Except.error RegError.duplicateRegistrationError ∧
    applyRegister db' (u, d') = db' := by
  obtain ⟨_, _, ⟨ev, hev, hopen⟩, hemp, _, hr, hdb⟩ := register_ok_inv h1
  have hru : r.user_id = u := by rw [hr]
  have hre : r.event_id = d.event_id := by rw [hr]
  have hfind' : db'.events.find? (fun x => decide (x.id = d'.event_id)) = some ev := by
    rw [hdb, hsame]; exact hev
  have hreg' : findRegistrations db' u d'.event_id = [r] := by
    rw [hdb]
    unfold findRegistrations at hemp ⊢
    rw [hsame]
    rw [List.filter_append, hemp]
    simp [hru, hre]
  have hdup' : checkDuplicateRegistration db' false u d'.event_id = Except.ok true := by
    simp [checkDuplicateRegistration, hreg', maybeSingle]
  have hmain : register db' u d' = Except.error RegError.duplicateRegistrationError := by
    unfold register
    rw [hv1, hv2, hfind']
    simp only [Bool.or_self, Bool.false_eq_true, if_false, hopen, if_true]
    unfold createRegistration
    rw [hdup']
  exact ⟨hmain, by simp [applyRegister, hmain]⟩

/-- Witness for C2: after user u1 successfully registered for event e1, the
same call again fails with the duplicate error and changes nothing. -/
theorem register_twice_witness :
    register (DB.mk [⟨"e1", 2, true⟩]
        [⟨"u1", "e1", "Team A", "Idea", RegStatus.confirmed⟩])
      "u1" ⟨"e1", "Team A", "Idea"⟩ =
      Except.error RegError.duplicateRegistrationError ∧
    applyRegister (DB.mk [⟨"e1", 2, true⟩]
        [⟨"u1", "e1", "Team A", "Idea", RegStatus.confirmed⟩])
      ("u1", ⟨"e1", "Team A", "Idea"⟩) =
      DB.mk [⟨"e1", 2, true⟩] [⟨"u1", "e1", "Team A", "Idea", RegStatus.confirmed⟩] :=
  register_twice ⟨[⟨"e1", 2, true⟩], []⟩ "u1" ⟨"e1", "Team A", "Idea"⟩
    ⟨"e1", "Team A", "Idea"⟩ ⟨"u1", "e1", "Team A", "Idea", RegStatus.confirmed⟩
    ⟨[⟨"e1", 2, true⟩], [⟨"u1", "e1", "Team A", "Idea", RegStatus.confirmed⟩]⟩
    rfl (by decide) (by decide) (by decide)

/-- Counterexample for C3: on scores [50, 80, 80, 30] the recalculated ranks
are [2, 1, 1, 3] by user, not [3, 1, 1, 4] as the claim's example states: the
50-scorer gets rank 2 and the 30-scorer rank 3 under dense ranking. -/
theorem recalculateRanks_example_counterexample :
    findRank (recalculateRanks exampleEntries) "u1" = some 2 ∧
    ¬ findRank (recalculateRanks exampleEntries) "u1" = some 3 ∧
    findRank (recalculateRanks exampleEntries) "u4" = some 3 ∧
    ¬ findRank (recalculateRanks exampleEntries) "u4" = some 4 :=
  ⟨by decide, by decide, by decide, by decide⟩

/-- Claim C3 (amended): recalculateRanks sorts by score descending and
assigns dense competition ranks: the first (highest-score) entry gets rank 1,
consecutive tied scores share a rank, each next distinct lower score gets the
previous rank plus one, the (user, score) rows are preserved up to
permutation; on scores [50, 80, 80, 30] this yields ranks [2, 1, 1, 3]
respectively (not [3, 1, 1, 4]). -/
theorem recalculateRanks_dense (l : List LBEntry) :
    List.Sorted scoreGE (recalculateRanks l) ∧
    List.Chain' rankStep (recalculateRanks l) ∧
    (∀ e, (recalculateRanks l).head? = some e → e.rank = 1) ∧
    List.Perm ((recalculateRanks l).map fun e => (e.user_id, e.score))
      (l.map fun e => (e.user_id, e.score)) ∧
    (findRank (recalculateRanks exampleEntries) "u1" = some 2 ∧
     findRank (recalculateRanks exampleEntries) "u2" = some 1 ∧
     findRank (recalculateRanks exampleEntries) "u3" = some 1 ∧
     findRank (recalculateRanks exampleEntries) "u4" = some 3) :=
  ⟨recalculateRanks_sorted l, chain_rankStep_assignDenseRanks _,
   recalculateRanks_head_rank l, recalculateRanks_perm_pair l,
   by decide, by decide, by decide, by decide⟩

/-- Witness for C3: the head of the recalculated example leaderboard exists
and carries rank 1. -/
theorem recalculateRanks_dense_witness :
    (LBEntry.mk "u2" 80 1).rank = 1 :=
  (recalculateRanks_dense exampleEntries).2.2.1 ⟨"u2", 80, 1⟩ (by decide)

/-- Claim C4: for an existing event, determineRegistrationStatus returns
confirmed exactly when the number of that event's confirmed registrations is
strictly below max_participants, and waitlisted exactly otherwise. -/
theorem determineRegistrationStatus_capacity (db : DB) (eventId : EventId) (ev : Event)
    (hev : db.events.find? (fun x => decide (x.id = eventId)) = some ev) :
    (determineRegistrationStatus db eventId = Except.ok RegStatus.confirmed ↔
      getParticipantCount db eventId < ev.max_participants)
  ∧ (determineRegistrationStatus db eventId = Except.ok RegStatus.waitlisted ↔
      ¬ getParticipantCount db eventId < ev.max_participants) := by
  unfold determineRegistrationStatus
  rw [hev]
  by_cases h : getParticipantCount db eventId < ev.max_participants <;>
    simp [h]

/-- Witness for C4: an event at capacity (one confirmed row, capacity one)
resolves to waitlisted. -/
theorem determineRegistrationStatus_capacity_witness :
    determineRegistrationStatus (DB.mk [⟨"e1", 1, true⟩]
      [⟨"u1", "e1", "T", "P", RegStatus.confirmed⟩]) "e1" =
      Except.ok RegStatus.waitlisted :=
  ((determineRegistrationStatus_capacity
      (DB.mk [⟨"e1", 1, true⟩] [⟨"u1", "e1", "T", "P", RegStatus.confirmed⟩])
      "e1" ⟨"e1", 1, true⟩ (by decide)).2).mpr (by decide)

/-- Counterexample for C5: for an event with registration_open = false, a
register call with a blank team name fails with ValidationError, not
RegistrationClosedError, because validation is checked first. -/
theorem register_closed_counterexample :
    register (DB.mk [⟨"e1", 2, false⟩] []) "u1" ⟨"e1", "", "P"⟩ =
      Except.error RegError.validationError ∧
    RegError.validationError ≠ RegError.registrationClosedError :=
  ⟨by decide, by decide⟩

/-- Claim C5 (amended): for an event with registration_open = false, every
register call fails and inserts no row; calls whose teamName and projectIdea
are non-empty after trimming fail specifically with RegistrationClosedError,
while blank inputs fail with ValidationError first. -/
theorem register_closed_rejection (db : DB) (u : UserId) (d : RegistrationData)
    (ev : Event)
    (hev : db.events.find? (fun x => decide (x.id = d.event_id)) = some ev)
    (hopen : ev.registration_open = false) :
    (strTrimEmpty d.team_name = false → strTrimEmpty d.project_idea = false →
      register db u d = Except.error RegError.registrationClosedError)
  ∧ (∃ err, register db u d = Except.error err)
  ∧ applyRegister db (u, d) = db := by
  have hcl : strTrimEmpty d.team_name = false → strTrimEmpty d.project_idea = false →
      register db u d = Except.error RegError.registrationClosedError := by
    intro hv1 hv2
    unfold register
    rw [hv1, hv2, hev]
    simp only [Bool.or_self, Bool.false_eq_true, if_false, hopen]
  have herr : ∃ err, register db u d = Except.error err := by
    rcases hb1 : strTrimEmpty d.team_name with _ | _
    · rcases hb2 : strTrimEmpty d.project_idea with _ | _
      · exact ⟨_, hcl hb1 hb2⟩
      · exact ⟨RegError.validationError, by simp [register, hb1, hb2]⟩
    · exact ⟨RegError.validationError, by simp [register, hb1]⟩
  refine ⟨hcl, herr, ?_⟩
  obtain ⟨err, herr'⟩ := herr
  simp [applyRegister, herr']

/-- Witness for C5: a well-formed registration attempt against a closed
event is rejected with RegistrationClosedError and commits nothing. -/
theorem register_closed_rejection_witness :
    register (DB.mk [⟨"e1", 2, false⟩] []) "u1" ⟨"e1", "Team A", "Idea"⟩ =
      Except.error RegError.registrationClosedError ∧
    applyRegister (DB.mk [⟨"e1", 2, false⟩] []) ("u1", ⟨"e1", "Team A", "Idea"⟩) =
      DB.mk [⟨"e1", 2, false⟩] [] :=
  ⟨(register_closed_rejection (DB.mk [⟨"e1", 2, false⟩] []) "u1"
      ⟨"e1", "Team A", "Idea"⟩ ⟨"e1", 2, false⟩ (by decide) (by decide)).1
      (by decide) (by decide),
   (register_closed_rejection (DB.mk [⟨"e1", 2, false⟩] []) "u1"
      ⟨"e1", "Team A", "Idea"⟩ ⟨"e1", 2, false⟩ (by decide) (by decide)).2.2⟩

/-- Claim C6: a register call whose teamName or projectIdea is empty after
trimming fails with ValidationError and inserts no row; with both non-empty
after trimming and the remaining preconditions met (event exists and is
open, no existing registration for the pair) the call succeeds. -/
theorem register_validation_boundary (db : DB) (u : UserId) (d : RegistrationData) :
    ((strTrimEmpty d.team_name || strTrimEmpty d.project_idea) = true →
      register db u d = Except.error RegError.validationError ∧
      applyRegister db (u, d) = db)
  ∧ ((strTrimEmpty d.team_name || strTrimEmpty d.project_idea) = false →
      ∀ ev, db.events.find? (fun x => decide (x.id = d.event_id)) = some ev →
        ev.registration_open = true →
        findRegistrations db u d.event_id = [] →
        ∃ r db', register db u d = Except.ok (r, db')) := by
  constructor
  · intro hv
    have hmain : register db u d = Except.error RegError.validationError := by
      simp [register, hv]
    exact ⟨hmain, by simp [applyRegister, hmain]⟩
  · intro hv ev hev hopen hemp
    have hv' : strTrimEmpty d.team_name = false ∧ strTrimEmpty d.project_idea = false := by
      simpa using hv
    have hdup : checkDuplicateRegistration db false u d.event_id = Except.ok false :=
      checkDuplicate_ok_false.mpr hemp
    have hins : insertRegistration db
        ⟨u, d.event_id, d.team_name, d.project_idea,
          if getParticipantCount db d.event_id < ev.max_participants
          then RegStatus.confirmed else RegStatus.waitlisted⟩ =
        Except.ok { db with registrations := db.registrations ++
          [⟨u, d.event_id, d.team_name, d.project_idea,
            if getParticipantCount db d.event_id < ev.max_participants
            then RegStatus.confirmed else RegStatus.waitlisted⟩] } := by
      unfold insertRegistration
      rw [if_neg]
      intro hany
      rw [List.any_eq_true] at hany
      obtain ⟨x, hx, hpx⟩ := hany
      have hpx' : (decide (x.user_id = u) && decide (x.event_id = d.event_id)) = true := hpx
      have : x ∈ findRegistrations db u d.event_id := by
        unfold findRegistrations
        rw [List.mem_filter]
        exact ⟨hx, hpx'⟩
      rw [hemp] at this
      exact absurd this (List.not_mem_nil x)
    refine ⟨⟨u, d.event_id, d.team_name, d.project_idea,
      if getParticipantCount db d.event_id < ev.max_participants
      then RegStatus.confirmed else RegStatus.waitlisted⟩,
      { db with registrations := db.registrations ++
        [⟨u, d.event_id, d.team_name, d.project_idea,
          if getParticipantCount db d.event_id < ev.max_participants
          then RegStatus.confirmed else RegStatus.waitlisted⟩] }, ?_⟩
    unfold register
    rw [hv'.1, hv'.2, hev]
    simp only [Bool.or_self, Bool.false_eq_true, if_false, hopen, if_true]
    unfold createRegistration
    rw [hdup]
    simp only []
    unfold determineRegistrationStatus
    rw [hev]
    simp only []
    rw [hins]

/-- Witness for C6: a whitespace-only team name is rejected with
ValidationError and commits nothing, while "Team A" with a non-empty project
idea is accepted. -/
theorem register_validation_boundary_witness :
    register (DB.mk [⟨"e1", 2, true⟩] []) "u1" ⟨"e1", " ", "Idea"⟩ =
      Except.error RegError.validationError ∧
    applyRegister (DB.mk [⟨"e1", 2, true⟩] []) ("u1", ⟨"e1", " ", "Idea"⟩) =
      DB.mk [⟨"e1", 2, true⟩] [] ∧
    (register (DB.mk [⟨"e1", 2, true⟩] []) "u1" ⟨"e1", "Team A", "Idea"⟩).isOk = true := by
  obtain ⟨h1, h2⟩ := (register_validation_boundary (DB.mk [⟨"e1", 2, true⟩] []) "u1"
    ⟨"e1", " ", "Idea"⟩).1 (by decide)
  obtain ⟨r, db', h3⟩ := (register_validation_boundary (DB.mk [⟨"e1", 2, true⟩] []) "u1"
    ⟨"e1", "Team A", "Idea"⟩).2 (by decide) ⟨"e1", 2, true⟩ (by decide) rfl (by decide)
  refine ⟨h1, h2, ?_⟩
  rw [h3]
  rfl

/-- Claim C7: recalculateRanks is idempotent: recalculating again with no
intervening score change reproduces the identical rank assignment. -/
theorem recalculateRanks_idempotent (l : List LBEntry) :
    recalculateRanks (recalculateRanks l) = recalculateRanks l := by
  unfold recalculateRanks
  have h1 : List.Sorted scoreGE (l.insertionSort scoreGE) :=
    List.sorted_insertionSort scoreGE l
  have h2 : List.Sorted scoreGE (assignDenseRanks (l.insertionSort scoreGE)) :=
    sorted_assignDenseRanks h1
  rw [h2.insertionSort_eq, assignDenseRanks_idem]

/-- Claim C8: with at most one stored row per (user, event) pair (the table's
unique constraint), a successful read returns true exactly when some
registration row exists for that exact pair, regardless of its status, and a
failing read surfaces StorageError instead of a boolean. -/
theorem checkDuplicateRegistration_spec (db : DB) (u : UserId) (e : EventId)
    (huniq : (findRegistrations db u e).length ≤ 1) :
    (checkDuplicateRegistration db false u e =
      Except.ok (db.registrations.any fun r =>
        decide (r.user_id = u) && decide (r.event_id = e)))
  ∧ checkDuplicateRegistration db true u e = Except.error RegError.storageError := by
  constructor
  · unfold checkDuplicateRegistration
    rcases hl : findRegistrations db u e with _ | ⟨r, _ | ⟨s, t⟩⟩
    · have hany : (db.registrations.any fun r =>
          decide (r.user_id = u) && decide (r.event_id = e)) = false := by
        rw [List.any_eq_false]
        intro x hx
        have := List.filter_eq_nil_iff.mp hl x hx
        simpa using this
      simp [maybeSingle, hl, hany]
    · have hr : r ∈ findRegistrations db u e := by
        rw [hl]
        exact List.mem_cons_self r []
      have hmem := List.mem_filter.mp hr
      have hany : (db.registrations.any fun r =>
          decide (r.user_id = u) && decide (r.event_id = e)) = true :=
        List.any_eq_true.mpr ⟨r, hmem.1, hmem.2⟩
      simp [maybeSingle, hl, hany]
    · rw [hl] at huniq
      simp at huniq
  · rfl

/-- Witness for C8: a pending registration for (u1, e1) makes the duplicate
check report true, and a failing read yields StorageError. -/
theorem checkDuplicateRegistration_spec_witness :
    checkDuplicateRegistration (DB.mk [] [⟨"u1", "e1", "T", "P", RegStatus.pending⟩])
      false "u1" "e1" = Except.ok true ∧
    checkDuplicateRegistration (DB.mk [] [⟨"u1", "e1", "T", "P", RegStatus.pending⟩])
      true "u1" "e1" = Except.error RegError.storageError :=
  ⟨(checkDuplicateRegistration_spec
      (DB.mk [] [⟨"u1", "e1", "T", "P", RegStatus.pending⟩]) "u1" "e1"
      (by decide)).1.trans (by decide),
   (checkDuplicateRegistration_spec
      (DB.mk [] [⟨"u1", "e1", "T", "P", RegStatus.pending⟩]) "u1" "e1"
      (by decide)).2⟩

/-- Counterexample for C9: a backing-store failure whose message happens to
contain the substring Unauthorized is returned with HTTP 401 and the verbatim
wrapped store message, not the generic 500 body. -/
theorem leaderboard_error_leak_counterexample :
    leaderboardErrorResponse (storeFailure "Unauthorized") =
      ⟨401, "Failed to upsert leaderboard entry: Unauthorized"⟩ ∧
    ¬ (leaderboardErrorResponse (storeFailure "Unauthorized")).status = 500 ∧
    strContains (leaderboardErrorResponse (storeFailure "Unauthorized")).error
      "Unauthorized" = true :=
  ⟨by decide, by decide, by decide⟩

/-- Claim C9 (amended): any failure of the leaderboard upsert whose message
contains none of the authentication/authorization marker substrings — in
particular a typical backing-store failure — is answered with HTTP 500 and
the constant structured body, never the verbatim store error. -/
theorem leaderboard_storage_error_500 (msg : String)
    (h1 : strContains msg "Unauthorized" = false)
    (h2 : strContains msg "Authentication required" = false)
    (h3 : strContains msg "Admin access required" = false) :
    leaderboardErrorResponse (LBFailure.errorWithMessage msg) =
      ⟨500, "Internal server error"⟩ := by
  simp [leaderboardErrorResponse, h1, h2, h3]

/-- Witness for C9: a wrapped connection failure is mapped to the generic
500 response. -/
theorem leaderboard_storage_error_500_witness :
    leaderboardErrorResponse (storeFailure "connection refused") =
      ⟨500, "Internal server error"⟩ :=
  leaderboard_storage_error_500
    ("Failed to upsert leaderboard entry: " ++ "connection refused")
    (by decide) (by decide) (by decide)

/-- Counterexample for C10: with limit 0, a call made at or after the
stored entry's reset time (the second call, at time 7, after the first
window's reset time 5) starts a fresh window whose first call is denied,
not allowed. -/
theorem checkRateLimit_zero_limit_counterexample :
    ((runRateLimit (fun _ => none) "u" 0 5 [0, 7]).1.map
      (fun r => (r.allowed, r.resetTime))) = [(false, 5), (false, 12)] ∧
    (5 : Nat) ≤ 7 :=
  ⟨by decide, by decide⟩

/-- Claim C10 (amended): for a fixed user, limit and window, (1) in any call
sequence opening a window and staying before its reset time, at most `limit`
calls are allowed; (2) every returned remaining value is at most `limit`
(and is a natural, hence nonnegative); (3) a denied call returns remaining 0
and never increments the stored count (it leaves the entry untouched or
resets it to count 0 at window expiry); (4) provided limit > 0, a call made
at or after the stored entry's reset time starts a fresh window whose first
call is allowed. -/
theorem checkRateLimit_spec (u : String) (limit w : Nat) :
    (∀ (store : RLStore) (t0 : Nat) (ts : List Nat),
      store (rlKey u) = none → (∀ t ∈ ts, t < t0 + w) →
      allowedCount (runRateLimit store u limit w (t0 :: ts)).1 ≤ limit) ∧
    (∀ (store : RLStore) (now : Nat),
      (checkRateLimit store u limit w now).1.remaining ≤ limit) ∧
    (∀ (store : RLStore) (now : Nat),
      (checkRateLimit store u limit w now).1.allowed = false →
      (checkRateLimit store u limit w now).1.remaining = 0 ∧
      ((checkRateLimit store u limit w now).2 (rlKey u) = store (rlKey u) ∨
       (checkRateLimit store u limit w now).2 (rlKey u) = some ⟨0, now + w⟩)) ∧
    (∀ (store : RLStore) (now : Nat) (e : RateLimitEntry),
      0 < limit → store (rlKey u) = some e → e.resetTime ≤ now →
      (checkRateLimit store u limit w now).1.allowed = true) :=
  ⟨fun store t0 ts h0 hts => rl_window_allowed_le store u limit w t0 ts h0 hts,
   fun store now => checkRateLimit_remaining_le store u limit w now,
   fun store now h => checkRateLimit_denied store u limit w now h,
   fun store now e hpos hs hnow => by
     rcases e with ⟨c, R⟩
     exact checkRateLimit_fresh_allowed store u limit w now hpos hs hnow⟩

/-- Witness for C10: with limit 1 and window 5, three calls inside one window
allow at most one request; remaining is bounded; a denied call (count already
at the limit) reports remaining 0 and leaves the entry unchanged; and a call
at the reset time of an expired entry is allowed again. -/
theorem checkRateLimit_spec_witness :
    allowedCount (runRateLimit (fun _ => none) "u" 1 5 [0, 1, 2]).1 ≤ 1 ∧
    (checkRateLimit (fun _ => none) "u" 1 5 0).1.remaining ≤ 1 ∧
    ((checkRateLimit (fun k => if k = "registration:u" then some ⟨1, 10⟩ else none)
        "u" 1 5 3).1.remaining = 0 ∧
      ((checkRateLimit (fun k => if k = "registration:u" then some ⟨1, 10⟩ else none)
          "u" 1 5 3).2 (rlKey "u") =
        (fun k => if k = "registration:u" then some ⟨1, 10⟩ else none) (rlKey "u") ∨
       (checkRateLimit (fun k => if k = "registration:u" then some ⟨1, 10⟩ else none)
          "u" 1 5 3).2 (rlKey "u") = some ⟨0, 3 + 5⟩)) ∧
    (checkRateLimit (fun k => if k = "registration:u" then some ⟨1, 10⟩ else none)
        "u" 1 5 10).1.allowed = true :=
  ⟨(checkRateLimit_spec "u" 1 5).1 (fun _ => none) 0 [1, 2] rfl (by decide),
   (checkRateLimit_spec "u" 1 5).2.1 (fun _ => none) 0,
   (checkRateLimit_spec "u" 1 5).2.2.1
     (fun k => if k = "registration:u" then some ⟨1, 10⟩ else none) 3 (by decide),
   (checkRateLimit_spec "u" 1 5).2.2.2
     (fun k => if k = "registration:u" then some ⟨1, 10⟩ else none) 10 ⟨1, 10⟩
     (by decide) (by decide) (by decide)⟩
